import Mathlib

/-!
# Verification of the X.509 / PKCS#7 core

A shallow embedding of the Rust sources of this repository:

* `src/rust/cryptography-x509/src/common.rs` (DNS names, DNS patterns,
  the read-or-write ASN.1 wrapper, `Time`),
* `src/rust/cryptography-x509-validation/src/policy/mod.rs` (the policy
  engine: `permits_basic`, `permits_leaf`, `permits_ca`, `permits_ee`,
  `permits_validity_date`, `Subject::matches`),
* `src/rust/src/pkcs7.rs` (S/MIME canonicalization, decryption,
  PKCS#7 signature-algorithm selection),
* `src/rust/src/x509/sign.rs` (`compute_signature_algorithm`).

Byte strings are `List Nat` (each entry an octet), Rust `&str` values are
`List Char`.  Fallible Rust functions returning `Result`/`Option` become
`Except`/`Option`; a Rust panic is modelled by `Option.none` where noted.
-/

namespace X509

/-! ## Rust string primitives

Rust's `str::len` counts UTF-8 bytes.  `rustCharLen` is the UTF-8 byte
count of one scalar value, `rustStrLen` of a whole string. -/

def rustCharLen (c : Char) : Nat :=
  if c.toNat < 0x80 then 1
  else if c.toNat < 0x800 then 2
  else if c.toNat < 0x10000 then 3
  else 4

def rustStrLen (s : List Char) : Nat :=
  (s.map rustCharLen).sum

/-- Rust `char::is_whitespace`: membership in the Unicode `White_Space`
set (the 25 code points with that property). -/
def isWhitespaceRust (c : Char) : Bool :=
  decide (c.toNat ∈ [9, 10, 11, 12, 13, 32, 0x85, 0xA0, 0x1680,
    0x2000, 0x2001, 0x2002, 0x2003, 0x2004, 0x2005, 0x2006, 0x2007,
    0x2008, 0x2009, 0x200A, 0x2028, 0x2029, 0x202F, 0x205F, 0x3000])

/-- Rust `char::is_ascii_alphanumeric`: `0-9`, `A-Z` or `a-z`. -/
def isAsciiAlnum (c : Char) : Bool :=
  (48 ≤ c.toNat && c.toNat ≤ 57) ||
  (65 ≤ c.toNat && c.toNat ≤ 90) ||
  (97 ≤ c.toNat && c.toNat ≤ 122)

/-- Rust `u8::to_ascii_lowercase` / `char::to_ascii_lowercase`. -/
def toAsciiLower (c : Char) : Char :=
  if 65 ≤ c.toNat && c.toNat ≤ 90 then Char.ofNat (c.toNat + 32) else c

/-- Rust `str::eq_ignore_ascii_case`: equal lengths and pointwise
ASCII-case-insensitive equality. -/
def eqIgnoreAsciiCase (a b : List Char) : Bool :=
  (a.length == b.length) &&
    (a.zip b).all fun p => toAsciiLower p.1 == toAsciiLower p.2

/-- Rust `str::split('.')`, at the `List Char` level.  An empty string
splits into one empty piece, like Rust's `split`. -/
def splitDot : List Char → List (List Char)
  | [] => [[]]
  | c :: rest =>
    if c = '.' then [] :: splitDot rest
    else
      match splitDot rest with
      | [] => [[c]]
      | l :: ls => (c :: l) :: ls

/-- Rust `str::split_once('.')`: the part before the first dot and the
part after it, or `none` when there is no dot. -/
def splitOnceDot : List Char → Option (List Char × List Char)
  | [] => none
  | c :: rest =>
    if c = '.' then some ([], rest)
    else (splitOnceDot rest).map fun p => (c :: p.1, p.2)

/-! ## `DNSName` (`src/rust/cryptography-x509/src/common.rs`) -/

/-- The per-label checks of `DNSName::new`: a label must be non-empty,
at most 63 bytes, must not start or end with `-`, and must contain only
ASCII alphanumerics and `-`. -/
def labelOk (label : List Char) : Bool :=
  !(label.isEmpty || rustStrLen label > 63 ||
      label.head? == some '-' || label.getLast? == some '-') &&
    label.all fun c => isAsciiAlnum c || c == '-'

/-- Models `asn1::IA5String::new` (dependency of the source): succeeds
exactly on ASCII strings. -/
def isIA5 (s : List Char) : Bool :=
  s.all fun c => c.toNat ≤ 127

/-- The whole validity check of `DNSName::new`, in source order: reject
empty strings, whitespace, byte length over 253; then check every
`.`-separated label; finally require an IA5 (ASCII) string. -/
def dnsCheck (value : List Char) : Bool :=
  if value.isEmpty || value.any isWhitespaceRust || rustStrLen value > 253 then false
  else (splitDot value).all labelOk && isIA5 value

/-- A validated DNS name, as produced by `DNSName::new`. -/
structure DNSName where
  val : List Char
  ok : dnsCheck val = true

instance : DecidableEq DNSName := fun a b => by
  cases a with
  | mk va ha =>
    cases b with
    | mk vb hb =>
      cases h : decide (va = vb) with
      | true => exact isTrue (by simp at h; cases h; rfl)
      | false => exact isFalse (by simp at h; intro hc; cases hc; exact h rfl)

/-- `DNSName::new`. -/
def DNSName.new (value : List Char) : Option DNSName :=
  if h : dnsCheck value = true then some ⟨value, h⟩ else none

/-- `DNSName::parent`: the suffix after the first `.`, revalidated. -/
def DNSName.parent (n : DNSName) : Option DNSName :=
  match splitOnceDot n.val with
  | some p => DNSName.new p.2
  | none => none

/-- `impl PartialEq for DNSName`: ASCII-case-insensitive comparison. -/
def DNSName.eq (a b : DNSName) : Bool :=
  eqIgnoreAsciiCase a.val b.val

/-! ## `DNSPattern` (`src/rust/cryptography-x509/src/common.rs`) -/

inductive DNSPattern where
  | Exact (n : DNSName)
  | Wildcard (n : DNSName)

/-- `DNSPattern::new`: a leading `*.` makes a wildcard over the rest,
anything else must be an exact valid name. -/
def DNSPattern.new (pat : List Char) : Option DNSPattern :=
  match pat with
  | '*' :: '.' :: rest => (DNSName.new rest).map DNSPattern.Wildcard
  | _ => (DNSName.new pat).map DNSPattern.Exact

/-- `DNSPattern::matches`. -/
def DNSPattern.matches (p : DNSPattern) (name : DNSName) : Bool :=
  match p with
  | .Exact pat => pat.eq name
  | .Wildcard pat =>
    match name.parent with
    | some parent => pat.eq parent
    | none => false

/-! ## S/MIME canonicalization (`src/rust/src/pkcs7.rs`) -/

/-- The bytes of `"Content-Type: text/plain\r\n\r\n"`. -/
def smimeHeader : List Nat :=
  ("Content-Type: text/plain".toList.map Char.toNat) ++ [13, 10, 13, 10]

/-- The conversion loop of `smime_canonicalize`: every `\n` (byte 10)
whose predecessor in the original data is not `\r` (byte 13) becomes
`\r\n`.  `prev` carries the previous original byte (`data[i-1]`;
`none` at index 0), exactly the condition
`c == b'\n' && (i == 0 || data[i - 1] != b'\r')` of the source. -/
def canonicalizeBytes : Option Nat → List Nat → List Nat
  | _, [] => []
  | prev, c :: rest =>
    if c == 10 && !(prev == some 13) then 13 :: 10 :: canonicalizeBytes (some 10) rest
    else c :: canonicalizeBytes (some c) rest

/-- `smime_canonicalize`: returns `(with_header, without_header)`.  In
text mode the header is prepended to the first component.  The
`Cow::Borrowed` shortcut of the source (taken when no byte changed)
returns the input itself, which equals the converted value, so it does
not affect the returned bytes. -/
def smime_canonicalize (data : List Nat) (text_mode : Bool) : List Nat × List Nat :=
  let body := canonicalizeBytes none data
  ((if text_mode then smimeHeader else []) ++ body, body)

/-- The removal loop of `smime_decanonicalize`: every `\r\n` pair
becomes `\n` (the source drops `data[i-1] = \r` from the copied segment
whenever `data[i] = \n` follows it). -/
def decanonicalizeBytes : List Nat → List Nat
  | [] => []
  | [c] => [c]
  | c1 :: c2 :: rest =>
    if c1 = 13 && c2 = 10 then 10 :: decanonicalizeBytes rest
    else c1 :: decanonicalizeBytes (c2 :: rest)

/-- `smime_decanonicalize`: in text mode first strip the
`Content-Type: text/plain\r\n\r\n` header when present, then collapse
every `\r\n` to `\n`. -/
def smime_decanonicalize (data : List Nat) (text_mode : Bool) : List Nat :=
  let data :=
    if text_mode && smimeHeader.isPrefixOf data then data.drop smimeHeader.length
    else data
  decanonicalizeBytes data

/-- Formalizes the hypothesis of the round-trip claim: a byte string
contains a *bare* `\r`, i.e. a `\r` not immediately followed by `\n`. -/
def hasBareCR : List Nat → Bool
  | [] => false
  | [c] => c == 13
  | c1 :: c2 :: rest =>
    if c1 = 13 then !(c2 == 10) || hasBareCR rest
    else hasBareCR (c2 :: rest)

/-! ## Algorithm identifiers (`src/rust/cryptography-x509/src/common.rs`)

`AlgorithmIdentifier` is an OID together with an OID-dispatched
parameter payload; the OID is determined by the payload variant, so the
embedding identifies the whole identifier with its `AlgorithmParameters`
value.  The `Rsa`, `Ec` and AES-CBC variants are used by
`policy/mod.rs` and `pkcs7.rs` but absent from the snapshot of
`common.rs` under `src/`; they are modelled from the spec (§3:
"RSA-PKCS#1 ... ECDSA ... AES-128/192/256-CBC (IV as OCTET STRING)"). -/

inductive EcParameters where
  | NamedCurve (oid : List Nat)
deriving DecidableEq

mutual

inductive AlgorithmParameters where
  | Sha1 (p : Option Unit)
  | Sha224 (p : Option Unit)
  | Sha256 (p : Option Unit)
  | Sha384 (p : Option Unit)
  | Sha512 (p : Option Unit)
  | Sha3_224 (p : Option Unit)
  | Sha3_256 (p : Option Unit)
  | Sha3_384 (p : Option Unit)
  | Sha3_512 (p : Option Unit)
  | Ed25519
  | Ed448
  | EcDsaWithSha224 (p : Option Unit)
  | EcDsaWithSha256 (p : Option Unit)
  | EcDsaWithSha384 (p : Option Unit)
  | EcDsaWithSha512 (p : Option Unit)
  | EcDsaWithSha3_224
  | EcDsaWithSha3_256
  | EcDsaWithSha3_384
  | EcDsaWithSha3_512
  | RsaWithSha1 (p : Option Unit)
  | RsaWithSha1Alt (p : Option Unit)
  | RsaWithSha224 (p : Option Unit)
  | RsaWithSha256 (p : Option Unit)
  | RsaWithSha384 (p : Option Unit)
  | RsaWithSha512 (p : Option Unit)
  | RsaWithSha3_224 (p : Option Unit)
  | RsaWithSha3_256 (p : Option Unit)
  | RsaWithSha3_384 (p : Option Unit)
  | RsaWithSha3_512 (p : Option Unit)
  | RsaPss (p : Option RsaPssParameters)
  | DsaWithSha224
  | DsaWithSha256
  | DsaWithSha384
  | DsaWithSha512
  | Rsa (p : Option Unit)
  | Ec (p : EcParameters)
  | Aes128Cbc (iv : List Nat)
  | Aes192Cbc (iv : List Nat)
  | Aes256Cbc (iv : List Nat)
  | Other (oid : List Nat) (raw : Option (Nat × List Nat))

/-- RFC 4055 `MaskGenAlgorithm`: the MGF OID with an inner hash
algorithm identifier as its parameters. -/
inductive MaskGenAlgorithm where
  | mk (oid : List Nat) (params : AlgorithmParameters)

/-- RFC 4055 `RSASSA-PSS-params`. -/
inductive RsaPssParameters where
  | mk (hash_algorithm : AlgorithmParameters) (mask_gen_algorithm : MaskGenAlgorithm)
      (salt_length : Nat) (trailer_field : Nat)

end

mutual

def AlgorithmParameters.beq : AlgorithmParameters → AlgorithmParameters → Bool
  | .Sha1 a, .Sha1 b => a == b
  | .Sha224 a, .Sha224 b => a == b
  | .Sha256 a, .Sha256 b => a == b
  | .Sha384 a, .Sha384 b => a == b
  | .Sha512 a, .Sha512 b => a == b
  | .Sha3_224 a, .Sha3_224 b => a == b
  | .Sha3_256 a, .Sha3_256 b => a == b
  | .Sha3_384 a, .Sha3_384 b => a == b
  | .Sha3_512 a, .Sha3_512 b => a == b
  | .Ed25519, .Ed25519 => true
  | .Ed448, .Ed448 => true
  | .EcDsaWithSha224 a, .EcDsaWithSha224 b => a == b
  | .EcDsaWithSha256 a, .EcDsaWithSha256 b => a == b
  | .EcDsaWithSha384 a, .EcDsaWithSha384 b => a == b
  | .EcDsaWithSha512 a, .EcDsaWithSha512 b => a == b
  | .EcDsaWithSha3_224, .EcDsaWithSha3_224 => true
  | .EcDsaWithSha3_256, .EcDsaWithSha3_256 => true
  | .EcDsaWithSha3_384, .EcDsaWithSha3_384 => true
  | .EcDsaWithSha3_512, .EcDsaWithSha3_512 => true
  | .RsaWithSha1 a, .RsaWithSha1 b => a == b
  | .RsaWithSha1Alt a, .RsaWithSha1Alt b => a == b
  | .RsaWithSha224 a, .RsaWithSha224 b => a == b
  | .RsaWithSha256 a, .RsaWithSha256 b => a == b
  | .RsaWithSha384 a, .RsaWithSha384 b => a == b
  | .RsaWithSha512 a, .RsaWithSha512 b => a == b
  | .RsaWithSha3_224 a, .RsaWithSha3_224 b => a == b
  | .RsaWithSha3_256 a, .RsaWithSha3_256 b => a == b
  | .RsaWithSha3_384 a, .RsaWithSha3_384 b => a == b
  | .RsaWithSha3_512 a, .RsaWithSha3_512 b => a == b
  | .RsaPss none, .RsaPss none => true
  | .RsaPss (some a), .RsaPss (some b) => RsaPssParameters.beq a b
  | .DsaWithSha224, .DsaWithSha224 => true
  | .DsaWithSha256, .DsaWithSha256 => true
  | .DsaWithSha384, .DsaWithSha384 => true
  | .DsaWithSha512, .DsaWithSha512 => true
  | .Rsa a, .Rsa b => a == b
  | .Ec a, .Ec b => a == b
  | .Aes128Cbc a, .Aes128Cbc b => a == b
  | .Aes192Cbc a, .Aes192Cbc b => a == b
  | .Aes256Cbc a, .Aes256Cbc b => a == b
  | .Other a ar, .Other b br => a == b && ar == br
  | _, _ => false

def MaskGenAlgorithm.beq : MaskGenAlgorithm → MaskGenAlgorithm → Bool
  | .mk ao ap, .mk bo bp => ao == bo && AlgorithmParameters.beq ap bp

def RsaPssParameters.beq : RsaPssParameters → RsaPssParameters → Bool
  | .mk ah am asl at', .mk bh bm bsl bt' =>
    AlgorithmParameters.beq ah bh && MaskGenAlgorithm.beq am bm &&
      asl == bsl && at' == bt'

end

instance : BEq AlgorithmParameters := ⟨AlgorithmParameters.beq⟩

instance {ε α : Type} [DecidableEq ε] [DecidableEq α] : DecidableEq (Except ε α) := fun a b =>
  match a, b with
  | .error x, .error y =>
    if h : x = y then isTrue (by rw [h]) else isFalse (by intro hc; injection hc; exact h (by assumption))
  | .error _, .ok _ => isFalse (by intro hc; injection hc)
  | .ok _, .error _ => isFalse (by intro hc; injection hc)
  | .ok x, .ok y =>
    if h : x = y then isTrue (by rw [h]) else isFalse (by intro hc; injection hc; exact h (by assumption))

/-! ## Time (`src/rust/cryptography-x509/src/common.rs`)

`asn1::DateTime` (dependency type) is a record of calendar fields whose
derived ordering is lexicographic.  `asn1::UtcTime` can only be
constructed for years before 2050 (spec §3: "UTCTime (only
representable for years <2050)"); the invariant is carried in the
constructor. -/

structure DateTime where
  year : Nat
  month : Nat
  day : Nat
  hour : Nat
  minute : Nat
  second : Nat
deriving DecidableEq

/-- The lexicographic strict order of `asn1::DateTime`'s `PartialOrd`. -/
def DateTime.ltb (a b : DateTime) : Bool :=
  if a.year ≠ b.year then decide (a.year < b.year)
  else if a.month ≠ b.month then decide (a.month < b.month)
  else if a.day ≠ b.day then decide (a.day < b.day)
  else if a.hour ≠ b.hour then decide (a.hour < b.hour)
  else if a.minute ≠ b.minute then decide (a.minute < b.minute)
  else decide (a.second < b.second)

inductive Time where
  | UtcTime (dt : DateTime) (okYear : dt.year < 2050)
  | GeneralizedTime (dt : DateTime)

def Time.as_datetime : Time → DateTime
  | .UtcTime dt _ => dt
  | .GeneralizedTime dt => dt

/-! ## Validation errors

`permits_basic` and friends produce `ValidationError::Other(String)`
with the literal messages of `policy/mod.rs`.  The extension-policy
errors come from `policy/extension.rs`, which is not under `src/`;
their kinds are modelled from the spec's error taxonomy (§4.C, §6). -/

inductive ValidationError where
  | Other (msg : String)
  | ExtensionRequired (oid : List Nat)
  | ExtensionForbidden (oid : List Nat)
  | CriticalityMismatch (oid : List Nat)
  | DuplicateExtension
  | MalformedExtensionValue
  | EkuMissing
  | SubjectMismatch
  | AkiMissingKeyIdentifier
  | MalformedNameConstraints
  | MalformedAccessDescription
deriving DecidableEq

/-- `permits_validity_date` (`policy/mod.rs`): a `GeneralizedTime`
before the 2050 cutoff is rejected; everything else passes (the
dual constraint on `UtcTime` is enforced by its constructor). -/
def permits_validity_date (validity_date : Time) : Except ValidationError Unit :=
  match validity_date with
  | .GeneralizedTime dt =>
    if dt.year < 2050 then
      .error (.Other ("validity dates before generalized date cutoff must be UtcTime"))
    else .ok ()
  | .UtcTime _ _ => .ok ()

/-! ## Object identifiers (arc lists, values from `oid.rs`) -/

def SUBJECT_DIRECTORY_ATTRIBUTES_OID : List Nat := [2, 5, 29, 9]
def SUBJECT_KEY_IDENTIFIER_OID : List Nat := [2, 5, 29, 14]
def KEY_USAGE_OID : List Nat := [2, 5, 29, 15]
def SUBJECT_ALTERNATIVE_NAME_OID : List Nat := [2, 5, 29, 17]
def BASIC_CONSTRAINTS_OID : List Nat := [2, 5, 29, 19]
def NAME_CONSTRAINTS_OID : List Nat := [2, 5, 29, 30]
def AUTHORITY_KEY_IDENTIFIER_OID : List Nat := [2, 5, 29, 35]
def POLICY_CONSTRAINTS_OID : List Nat := [2, 5, 29, 36]
def EXTENDED_KEY_USAGE_OID : List Nat := [2, 5, 29, 37]
def AUTHORITY_INFORMATION_ACCESS_OID : List Nat := [1, 3, 6, 1, 5, 5, 7, 1, 1]
def EKU_SERVER_AUTH_OID : List Nat := [1, 3, 6, 1, 5, 5, 7, 3, 1]
def AD_OCSP_OID : List Nat := [1, 3, 6, 1, 5, 5, 7, 48, 1]
def AD_CA_ISSUERS_OID : List Nat := [1, 3, 6, 1, 5, 5, 7, 48, 2]
def MGF1_OID : List Nat := [1, 2, 840, 113549, 1, 1, 8]

/-! ## Names, general names, IP addresses -/

structure AttributeTypeValue where
  type_id : List Nat
  value : List Nat
deriving DecidableEq

/-- An X.501 `Name`: a sequence of relative distinguished names. -/
abbrev Name := List (List AttributeTypeValue)

/-- Modelled from the spec (§3): a 4- or 16-octet network-order
address (`types.rs` of the validation crate is not under `src/`). -/
structure IPAddress where
  octets : List Nat
deriving DecidableEq

/-- Modelled from the spec (§3): `IPAddress::from_bytes` accepts
exactly 4 or 16 octets. -/
def IPAddress.from_bytes (b : List Nat) : Option IPAddress :=
  if b.length = 4 || b.length = 16 then some ⟨b⟩ else none

/-- `GeneralName` (the tagged union of RFC 5280 §4.2.1.6).  Variants
the embedded functions never inspect are carried without payload. -/
inductive GeneralName where
  | DNSName (s : List Char)
  | IPAddress (b : List Nat)
  | RFC822Name (s : List Char)
  | UniformResourceIdentifier (s : List Char)
  | DirectoryName (n : Name)
  | OtherName
  | RegisteredID (oid : List Nat)
deriving DecidableEq

/-! ## Extensions and their decoded values

`Extension::value::<T>()` parses the raw DER value on demand and can
fail.  The embedding carries the decoded value as a sum; a value of the
wrong shape (or the `raw` variant) models DER that does not decode as
the requested type. -/

/-- Only the `keyCertSign` bit is read by the embedded code; the other
KeyUsage bits are irrelevant to every embedded function. -/
structure KeyUsage where
  key_cert_sign : Bool
deriving DecidableEq

structure BasicConstraints where
  ca : Bool
  path_length : Option Nat
deriving DecidableEq

structure AccessDescription where
  access_method : List Nat
  access_location : GeneralName
deriving DecidableEq

structure AuthorityKeyIdentifier where
  key_identifier : Option (List Nat)
deriving DecidableEq

structure GeneralSubtree where
  base : GeneralName
  minimum : Nat
  maximum : Option Nat
deriving DecidableEq

structure NameConstraints where
  permitted_subtrees : Option (List GeneralSubtree)
  excluded_subtrees : Option (List GeneralSubtree)
deriving DecidableEq

inductive ExtnValue where
  | keyUsage (ku : KeyUsage)
  | basicConstraints (bc : BasicConstraints)
  | subjectAlternativeName (san : List GeneralName)
  | extendedKeyUsage (ekus : List (List Nat))
  | authorityKeyIdentifier (aki : AuthorityKeyIdentifier)
  | authorityInformationAccess (ads : List AccessDescription)
  | nameConstraints (nc : NameConstraints)
  | raw (bytes : List Nat)
deriving DecidableEq

structure Extension where
  extn_id : List Nat
  critical : Bool
  value : ExtnValue
deriving DecidableEq

def Extension.keyUsageValue (e : Extension) : Except ValidationError KeyUsage :=
  match e.value with
  | .keyUsage ku => .ok ku
  | _ => .error .MalformedExtensionValue

def Extension.basicConstraintsValue (e : Extension) : Except ValidationError BasicConstraints :=
  match e.value with
  | .basicConstraints bc => .ok bc
  | _ => .error .MalformedExtensionValue

def Extension.sanValue (e : Extension) : Except ValidationError (List GeneralName) :=
  match e.value with
  | .subjectAlternativeName san => .ok san
  | _ => .error .MalformedExtensionValue

def Extension.ekuValue (e : Extension) : Except ValidationError (List (List Nat)) :=
  match e.value with
  | .extendedKeyUsage ekus => .ok ekus
  | _ => .error .MalformedExtensionValue

def Extension.akiValue (e : Extension) : Except ValidationError AuthorityKeyIdentifier :=
  match e.value with
  | .authorityKeyIdentifier aki => .ok aki
  | _ => .error .MalformedExtensionValue

def Extension.aiaValue (e : Extension) : Except ValidationError (List AccessDescription) :=
  match e.value with
  | .authorityInformationAccess ads => .ok ads
  | _ => .error .MalformedExtensionValue

def Extension.ncValue (e : Extension) : Except ValidationError NameConstraints :=
  match e.value with
  | .nameConstraints nc => .ok nc
  | _ => .error .MalformedExtensionValue

/-- `Extensions::get_extension`: the first extension with the given
OID (modelled from the spec §3, `extensions.rs` is not under `src/`). -/
def get_extension (exts : List Extension) (oid : List Nat) : Option Extension :=
  exts.find? fun e => e.extn_id == oid

/-! ## Certificates -/

structure SubjectPublicKeyInfo where
  algorithm : AlgorithmParameters
  subject_public_key : List Nat

structure Validity where
  not_before : Time
  not_after : Time

structure TbsCertificate where
  version : Nat
  serial : List Nat
  signature_alg : AlgorithmParameters
  issuer : Name
  validity : Validity
  subject : Name
  spki : SubjectPublicKeyInfo
  extensions : List Extension

structure Certificate where
  tbs_cert : TbsCertificate
  signature_alg : AlgorithmParameters
  signature : List Nat

/-- Modelled from the spec (§3 invariant "Uniqueness of OIDs is
required"): `Certificate::extensions()` fails on a duplicate extension
OID and otherwise yields the extension sequence (`certificate.rs` is
not under `src/`). -/
def Certificate.extensions (c : Certificate) : Except ValidationError (List Extension) :=
  if (c.tbs_cert.extensions.map Extension.extn_id).Nodup then .ok c.tbs_cert.extensions
  else .error .DuplicateExtension

/-- `serial.as_bytes()` is a big-endian two's-complement DER integer;
`serialValue` is the integer it denotes. -/
def beBytesToNat (bs : List Nat) : Nat :=
  bs.foldl (fun acc b => acc * 256 + b) 0

def serialValue (bytes : List Nat) : Int :=
  if bytes.headI.testBit 7 then
    (beBytesToNat bytes : Int) - (2 : Int) ^ (8 * bytes.length)
  else (beBytesToNat bytes : Int)

/-! ## `Subject` and SAN matching (`policy/mod.rs`)

`policy/mod.rs` uses the `DNSName`/`DNSPattern`/`IPAddress` types of
the validation crate's `types.rs`, which is not under `src/`; the spec
(§3) gives them the same definitions as `common.rs`, so the embedding
reuses the `common.rs` definitions above. -/

inductive Subject where
  | DNS (n : DNSName)
  | IP (addr : IPAddress)

/-- `Subject::subject_alt_name_matches`: a DNS subject matches a DNS
SAN entry whose bytes form a valid pattern matching the name; an IP
subject matches an IP SAN entry whose bytes parse to the same address;
anything else (including malformed entries) is `false`. -/
def Subject.subject_alt_name_matches (sub : Subject) (general_name : GeneralName) : Bool :=
  match general_name, sub with
  | .DNSName pattern, .DNS name => ((DNSPattern.new pattern).map fun p => p.matches name).getD false
  | .IPAddress addr, .IP name => ((IPAddress.from_bytes addr).map fun a => a == name).getD false
  | _, _ => false

/-- `Subject::matches`: true when any SAN entry matches. -/
def Subject.matches (sub : Subject) (san : List GeneralName) : Bool :=
  san.any sub.subject_alt_name_matches

/-! ## Extension policies

`policy/extension.rs` is not under `src/`.  `ExtensionPolicy` and its
application rules, and the individual validators registered by
`Policy::new`, are modelled from the spec (§4.C). -/

inductive Presence where
  | Present
  | MaybePresent
  | NotPresent
deriving DecidableEq

inductive Criticality where
  | Critical
  | NonCritical
  | Agnostic
deriving DecidableEq

/-- The registered validator functions of `policy/extension.rs`,
defunctionalized; `runValidator` below gives each tag its meaning. -/
inductive ValidatorTag where
  | aia
  | eku
  | akiCa
  | kuCa
  | bcCa
  | ncCa
  | sanEe
  | bcEe
deriving DecidableEq

structure ExtensionPolicy where
  oid : List Nat
  presence : Presence
  criticality : Criticality
  validator : Option ValidatorTag

def ExtensionPolicy.present (oid : List Nat) (criticality : Criticality)
    (validator : Option ValidatorTag) : ExtensionPolicy :=
  ⟨oid, .Present, criticality, validator⟩

def ExtensionPolicy.maybe_present (oid : List Nat) (criticality : Criticality)
    (validator : Option ValidatorTag) : ExtensionPolicy :=
  ⟨oid, .MaybePresent, criticality, validator⟩

def ExtensionPolicy.not_present (oid : List Nat) : ExtensionPolicy :=
  ⟨oid, .NotPresent, .Agnostic, none⟩

/-! ## Policy (`policy/mod.rs`)

The embedding keeps the fields the embedded checks read; the crypto-ops
handle and the two algorithm allow-lists (used only by `valid_issuer`,
which no claim concerns) are omitted. -/

structure Policy where
  max_chain_depth : Nat
  subject : Subject
  validation_time : DateTime
  extended_key_usage : List Nat
  common_extension_policies : List ExtensionPolicy
  ca_extension_policies : List ExtensionPolicy
  ee_extension_policies : List ExtensionPolicy

def DEFAULT_MAX_CHAIN_DEPTH : Nat := 8

/-- `Policy::new`: the CA/B default profile, with the three
extension-policy lists exactly as registered in `policy/mod.rs`. -/
def Policy.new (subject : Subject) (time : DateTime) (max_chain_depth : Option Nat) : Policy where
  max_chain_depth := max_chain_depth.getD DEFAULT_MAX_CHAIN_DEPTH
  subject := subject
  validation_time := time
  extended_key_usage := EKU_SERVER_AUTH_OID
  common_extension_policies := [
    ExtensionPolicy.maybe_present SUBJECT_DIRECTORY_ATTRIBUTES_OID .NonCritical none,
    ExtensionPolicy.maybe_present AUTHORITY_INFORMATION_ACCESS_OID .NonCritical (some .aia),
    ExtensionPolicy.maybe_present EXTENDED_KEY_USAGE_OID .NonCritical (some .eku)]
  ca_extension_policies := [
    ExtensionPolicy.maybe_present AUTHORITY_KEY_IDENTIFIER_OID .NonCritical (some .akiCa),
    ExtensionPolicy.maybe_present SUBJECT_KEY_IDENTIFIER_OID .NonCritical none,
    ExtensionPolicy.present KEY_USAGE_OID .Agnostic (some .kuCa),
    ExtensionPolicy.present BASIC_CONSTRAINTS_OID .Critical (some .bcCa),
    ExtensionPolicy.maybe_present NAME_CONSTRAINTS_OID .Agnostic (some .ncCa),
    ExtensionPolicy.maybe_present POLICY_CONSTRAINTS_OID .Critical none]
  ee_extension_policies := [
    ExtensionPolicy.present AUTHORITY_KEY_IDENTIFIER_OID .NonCritical none,
    ExtensionPolicy.maybe_present KEY_USAGE_OID .Agnostic none,
    ExtensionPolicy.present SUBJECT_ALTERNATIVE_NAME_OID .Agnostic (some .sanEe),
    ExtensionPolicy.maybe_present BASIC_CONSTRAINTS_OID .Agnostic (some .bcEe),
    ExtensionPolicy.not_present NAME_CONSTRAINTS_OID]

/-- Modelled from the spec (§4.C): a URI access location must have a
non-empty scheme. -/
def uriHasScheme (s : List Char) : Bool :=
  !(s.takeWhile fun c => !(c == ':')).isEmpty && s.contains ':'

/-- Modelled from the spec (§4.C): the concrete validators registered
by `Policy::new` (`policy/extension.rs` is not under `src/`).
Malformed extension values fail as in `Extension::value`. -/
def runValidator (tag : ValidatorTag) (p : Policy) (cert : Certificate)
    (e : Extension) : Except ValidationError Unit :=
  match tag with
  | .aia =>
    match e.aiaValue with
    | .error err => .error err
    | .ok ads =>
      if ads.all fun ad =>
          (ad.access_method == AD_OCSP_OID || ad.access_method == AD_CA_ISSUERS_OID) &&
            match ad.access_location with
            | .UniformResourceIdentifier s => uriHasScheme s
            | _ => false
      then .ok () else .error .MalformedAccessDescription
  | .eku =>
    match e.ekuValue with
    | .error err => .error err
    | .ok ekus => if ekus.contains p.extended_key_usage then .ok () else .error .EkuMissing
  | .akiCa =>
    match e.akiValue with
    | .error err => .error err
    | .ok aki =>
      if cert.tbs_cert.issuer ≠ cert.tbs_cert.subject ∧ aki.key_identifier = none then
        .error .AkiMissingKeyIdentifier
      else .ok ()
  | .kuCa =>
    match e.keyUsageValue with
    | .error err => .error err
    | .ok ku =>
      if ku.key_cert_sign then .ok ()
      else .error (.Other ("keyUsage.keyCertSign must be asserted in a CA certificate"))
  | .bcCa =>
    match e.basicConstraintsValue with
    | .error err => .error err
    | .ok bc =>
      if bc.ca then .ok ()
      else .error (.Other ("basicConstraints.cA must be asserted in a CA certificate"))
  | .ncCa =>
    match e.ncValue with
    | .error err => .error err
    | .ok nc =>
      let okSubtrees := fun (ts : Option (List GeneralSubtree)) =>
        (ts.getD []).all fun t => t.minimum == 0 && t.maximum == none
      if okSubtrees nc.permitted_subtrees && okSubtrees nc.excluded_subtrees then .ok ()
      else .error .MalformedNameConstraints
  | .sanEe =>
    match e.sanValue with
    | .error err => .error err
    | .ok san => if p.subject.matches san then .ok () else .error .SubjectMismatch
  | .bcEe =>
    match e.basicConstraintsValue with
    | .error err => .error err
    | .ok bc =>
      if bc.ca then .error (.Other ("basicConstraints.cA must not be asserted in an EE certificate"))
      else .ok ()

/-- Modelled from the spec (§4.C application rules 1-4):
`ExtensionPolicy::permits`. -/
def ExtensionPolicy.permits (pol : ExtensionPolicy) (p : Policy) (cert : Certificate)
    (exts : List Extension) : Except ValidationError Unit :=
  match get_extension exts pol.oid with
  | none =>
    if pol.presence = .Present then .error (.ExtensionRequired pol.oid) else .ok ()
  | some e =>
    if pol.presence = .NotPresent then .error (.ExtensionForbidden pol.oid)
    else if (pol.criticality = .Critical ∧ ¬e.critical) ∨
        (pol.criticality = .NonCritical ∧ e.critical) then
      .error (.CriticalityMismatch pol.oid)
    else
      match pol.validator with
      | none => .ok ()
      | some tag => runValidator tag p cert e

/-- The per-list loop `for ext_policy in ... { ext_policy.permits(...)? }`. -/
def runPolicies (p : Policy) (pols : List ExtensionPolicy) (cert : Certificate)
    (exts : List Extension) : Except ValidationError Unit :=
  match pols with
  | [] => .ok ()
  | pol :: rest =>
    match pol.permits p cert exts with
    | .error e => .error e
    | .ok _ => runPolicies p rest cert exts

/-- The critical-extension accounting of `permits_basic`: some critical
extension OID outside the union of registered policy OIDs. -/
def hasUnaccountedCritical (p : Policy) (exts : List Extension) : Bool :=
  let checked := (p.common_extension_policies ++ p.ca_extension_policies ++
    p.ee_extension_policies).map ExtensionPolicy.oid
  (exts.filter Extension.critical).any fun e => !(checked.contains e.extn_id)

/-- `Policy::permits_basic` (`policy/mod.rs`), in source order:
extension parse, version, inner/outer signature-algorithm match, serial
length, serial sign bit, non-empty issuer, validity-date encodings,
validity window, common extension policies, critical accounting. -/
def permits_basic (p : Policy) (cert : Certificate) : Except ValidationError Unit :=
  match cert.extensions with
  | .error e => .error e
  | .ok extensions =>
    if cert.tbs_cert.version ≠ 2 then
      .error (.Other ("certificate must be an X509v3 certificate"))
    else if ¬AlgorithmParameters.beq cert.signature_alg cert.tbs_cert.signature_alg then
      .error (.Other ("mismatch between signatureAlgorithm and SPKI algorithm"))
    else if ¬(1 ≤ cert.tbs_cert.serial.length ∧ cert.tbs_cert.serial.length ≤ 21) then
      .error (.Other ("certificate must have a serial between 1 and 20 octets"))
    else if cert.tbs_cert.serial.headI.testBit 7 then
      .error (.Other ("certificate serial number cannot be negative"))
    else if cert.tbs_cert.issuer.isEmpty then
      .error (.Other ("certificate must have a non-empty Issuer"))
    else
      match permits_validity_date cert.tbs_cert.validity.not_before with
      | .error e => .error e
      | .ok _ =>
        match permits_validity_date cert.tbs_cert.validity.not_after with
        | .error e => .error e
        | .ok _ =>
          if DateTime.ltb p.validation_time cert.tbs_cert.validity.not_before.as_datetime ||
              DateTime.ltb cert.tbs_cert.validity.not_after.as_datetime p.validation_time then
            .error (.Other ("cert is not valid at validation time"))
          else
            match runPolicies p p.common_extension_policies cert extensions with
            | .error e => .error e
            | .ok _ =>
              if hasUnaccountedCritical p extensions then
                .error (.Other ("certificate contains unaccounted-for critical extensions"))
              else .ok ()

/-- `Policy::permits_ca`: `permits_basic`, then the path-length check
against BasicConstraints, then the CA extension policies. -/
def permits_ca (p : Policy) (cert : Certificate) (current_depth : Nat)
    (extensions : List Extension) : Except ValidationError Unit :=
  match permits_basic p cert with
  | .error e => .error e
  | .ok _ =>
    match get_extension extensions BASIC_CONSTRAINTS_OID with
    | some bce =>
      match bce.basicConstraintsValue with
      | .error e => .error e
      | .ok bc =>
        if (bc.path_length.map fun len => decide (current_depth > len)).getD false then
          .error (.Other ("path length constraint violated"))
        else runPolicies p p.ca_extension_policies cert extensions
    | none => runPolicies p p.ca_extension_policies cert extensions

/-- `Policy::permits_ee`: `permits_basic`, then the EE extension
policies. -/
def permits_ee (p : Policy) (cert : Certificate)
    (extensions : List Extension) : Except ValidationError Unit :=
  match permits_basic p cert with
  | .error e => .error e
  | .ok _ => runPolicies p p.ee_extension_policies cert extensions

/-- `Policy::permits_leaf`: if a KeyUsage extension is present, decode
it (propagating a decode failure); when it asserts `keyCertSign`,
return `permits_ca` at depth 0; in every other case return
`permits_ee`. -/
def permits_leaf (p : Policy) (leaf : Certificate)
    (extensions : List Extension) : Except ValidationError Unit :=
  match get_extension extensions KEY_USAGE_OID with
  | some key_usage_ext =>
    match key_usage_ext.keyUsageValue with
    | .error e => .error e
    | .ok key_usage =>
      if key_usage.key_cert_sign then permits_ca p leaf 0 extensions
      else permits_ee p leaf extensions
  | none => permits_ee p leaf extensions

/-! ## PKCS#7 content model (RFC 5652 layouts, spec §3/§4.F; the ASN.1
record definitions live in `cryptography-x509/src/pkcs7.rs`, not under
`src/`) -/

structure IssuerAndSerialNumber where
  issuer : Name
  serial_number : List Nat
deriving DecidableEq

structure RecipientInfo where
  version : Nat
  issuer_and_serial_number : IssuerAndSerialNumber
  key_encryption_algorithm : AlgorithmParameters
  encrypted_key : List Nat

structure EncryptedContentInfo where
  content_type : List Nat
  content_encryption_algorithm : AlgorithmParameters
  encrypted_content : Option (List Nat)

structure EnvelopedData where
  version : Nat
  recipient_infos : List RecipientInfo
  encrypted_content_info : EncryptedContentInfo

/-- The `Content` union of `ContentInfo`.  `SignedData`'s internal
layout is irrelevant to every embedded function (the decrypt path only
distinguishes `EnvelopedData` from everything else), so it is carried
without payload. -/
inductive Content where
  | Data (d : Option (List Nat))
  | SignedData
  | EnvelopedData (ed : EnvelopedData)

/-- The error outcomes of `deserialize_and_decrypt`.  `UnwrapNone`
models the `.unwrap()` on a missing `encrypted_content`, which aborts
in the source rather than returning an error. -/
inductive Pkcs7Error where
  | AttributeNotFound
  | UnsupportedAlgorithm
  | UnwrapNone
deriving DecidableEq

/-- `deserialize_and_decrypt` (`src/rust/src/pkcs7.rs`), after the
input has been parsed into a `ContentInfo`.  The RSA private-key
decryption and the AES-128-CBC symmetric decryption are the injected
crypto operations (spec §6) and enter as function parameters.
`binary`/`text` are the PKCS7 option flags read at the end. -/
def deserialize_and_decrypt (content : Content) (certificate_serial : List Nat)
    (rsaDecrypt : List Nat → List Nat)
    (symDecrypt : List Nat → List Nat → List Nat → List Nat)
    (binary text : Bool) : Except Pkcs7Error (List Nat) :=
  match content with
  | .EnvelopedData enveloped_data =>
    let recipient_serial_number := certificate_serial
    match enveloped_data.recipient_infos.find?
        (fun info => info.issuer_and_serial_number.serial_number == recipient_serial_number) with
    | none => .error .AttributeNotFound
    | some recipient_info =>
      let key := rsaDecrypt recipient_info.encrypted_key
      match enveloped_data.encrypted_content_info.content_encryption_algorithm with
      | .Aes128Cbc iv =>
        match enveloped_data.encrypted_content_info.encrypted_content with
        | none => .error .UnwrapNone
        | some encrypted_content =>
          let plain_content := symDecrypt key iv encrypted_content
          .ok (if binary then plain_content else smime_decanonicalize plain_content text)
      | _ => .error .UnsupportedAlgorithm
  | _ => .error .UnsupportedAlgorithm

/-- Replace every recipient's issuer DN, leaving everything else of the
`EnvelopedData` unchanged (used to state that recipient selection never
reads the issuer DN). -/
def mapRecipientIssuers (f : Name → Name) (ed : EnvelopedData) : EnvelopedData :=
  ⟨ed.version,
    ed.recipient_infos.map fun ri =>
      ⟨ri.version,
        ⟨f ri.issuer_and_serial_number.issuer, ri.issuer_and_serial_number.serial_number⟩,
        ri.key_encryption_algorithm, ri.encrypted_key⟩,
    ed.encrypted_content_info⟩

/-! ## Signature-algorithm selection (`src/rust/src/x509/sign.rs`,
`src/rust/src/pkcs7.rs`)

`identify_key_type` and `identify_hash_type` classify Python objects;
the embedding starts from their already-identified results.  The
`rsa_padding` argument is either Python `None`, a `PKCS1v15` instance,
or a `PSS` instance carrying `_salt_length` and an `_mgf._algorithm`
hash. -/

inductive KeyType where
  | Rsa
  | Dsa
  | Ec
  | Ed25519
  | Ed448
deriving DecidableEq

inductive HashType where
  | None
  | Sha224
  | Sha256
  | Sha384
  | Sha512
  | Sha3_224
  | Sha3_256
  | Sha3_384
  | Sha3_512
deriving DecidableEq

inductive RsaPadding where
  | NonePad
  | Pkcs1v15
  | Pss (salt_length : Nat) (mgf_algorithm : HashType)
deriving DecidableEq

/-- `rsa_padding.is_instance(PSS)`. -/
def RsaPadding.isPss : RsaPadding → Bool
  | .Pss _ _ => true
  | _ => false

/-- `identify_alg_params_for_hash_type` (`sign.rs`).  The source
constructs `Sha224(())` etc. against a `common.rs` revision whose SHA
variants take a bare NULL; against the `src/` revision's
`Option<Null>` payload this is `some ()`. -/
def identify_alg_params_for_hash_type : HashType → Except String AlgorithmParameters
  | .Sha224 => .ok (.Sha224 (some ()))
  | .Sha256 => .ok (.Sha256 (some ()))
  | .Sha384 => .ok (.Sha384 (some ()))
  | .Sha512 => .ok (.Sha512 (some ()))
  | .Sha3_224 => .ok (.Sha3_224 (some ()))
  | .Sha3_256 => .ok (.Sha3_256 (some ()))
  | .Sha3_384 => .ok (.Sha3_384 (some ()))
  | .Sha3_512 => .ok (.Sha3_512 (some ()))
  | .None => .error ("Algorithm must be a registered hash algorithm, not None.")

/-- `compute_signature_algorithm` (`sign.rs`): PSS padding dominates;
otherwise dispatch on key and hash type.  ECDSA identifiers are
emitted without the legacy NULL parameter. -/
def compute_signature_algorithm (key_type : KeyType) (hash_type : HashType)
    (rsa_padding : RsaPadding) : Except String AlgorithmParameters :=
  match rsa_padding with
  | .Pss salt_length mgf_algorithm => do
    let hash_alg_params ← identify_alg_params_for_hash_type hash_type
    let mgf_alg_params ← identify_alg_params_for_hash_type mgf_algorithm
    .ok (.RsaPss (some (.mk hash_alg_params (.mk MGF1_OID mgf_alg_params) salt_length 1)))
  | _ =>
    match key_type, hash_type with
    | .Ed25519, .None => .ok .Ed25519
    | .Ed448, .None => .ok .Ed448
    | .Ed25519, _ | .Ed448, _ =>
      .error ("Algorithm must be None when signing via ed25519 or ed448")
    | .Ec, .Sha224 => .ok (.EcDsaWithSha224 none)
    | .Ec, .Sha256 => .ok (.EcDsaWithSha256 none)
    | .Ec, .Sha384 => .ok (.EcDsaWithSha384 none)
    | .Ec, .Sha512 => .ok (.EcDsaWithSha512 none)
    | .Ec, .Sha3_224 => .ok .EcDsaWithSha3_224
    | .Ec, .Sha3_256 => .ok .EcDsaWithSha3_256
    | .Ec, .Sha3_384 => .ok .EcDsaWithSha3_384
    | .Ec, .Sha3_512 => .ok .EcDsaWithSha3_512
    | .Rsa, .Sha224 => .ok (.RsaWithSha224 (some ()))
    | .Rsa, .Sha256 => .ok (.RsaWithSha256 (some ()))
    | .Rsa, .Sha384 => .ok (.RsaWithSha384 (some ()))
    | .Rsa, .Sha512 => .ok (.RsaWithSha512 (some ()))
    | .Rsa, .Sha3_224 => .ok (.RsaWithSha3_224 (some ()))
    | .Rsa, .Sha3_256 => .ok (.RsaWithSha3_256 (some ()))
    | .Rsa, .Sha3_384 => .ok (.RsaWithSha3_384 (some ()))
    | .Rsa, .Sha3_512 => .ok (.RsaWithSha3_512 (some ()))
    | .Dsa, .Sha224 => .ok .DsaWithSha224
    | .Dsa, .Sha256 => .ok .DsaWithSha256
    | .Dsa, .Sha384 => .ok .DsaWithSha384
    | .Dsa, .Sha512 => .ok .DsaWithSha512
    | .Dsa, .Sha3_224 | .Dsa, .Sha3_256 | .Dsa, .Sha3_384 | .Dsa, .Sha3_512 =>
      .error ("SHA3 hashes are not supported with DSA keys")
    | _, .None => .error ("Algorithm must be a registered hash algorithm, not None.")

/-- `compute_pkcs7_signature_algorithm` (`pkcs7.rs`): for an RSA key
without PSS padding the identifier is always `rsaEncryption` with NULL
parameters (RFC 3370 §3.2), independent of the digest; otherwise defer
to `compute_signature_algorithm`. -/
def compute_pkcs7_signature_algorithm (key_type : KeyType) (hash_type : HashType)
    (rsa_padding : RsaPadding) : Except String AlgorithmParameters :=
  if key_type == .Rsa && !rsa_padding.isPss then .ok (.Rsa (some ()))
  else compute_signature_algorithm key_type hash_type rsa_padding

/-! ## The read-or-write ASN.1 wrapper
(`src/rust/cryptography-x509/src/common.rs`) -/

inductive Asn1ReadableOrWritable (T U : Type) where
  | Read (v : T)
  | Write (v : U)

def Asn1ReadableOrWritable.new_read {T U : Type} (v : T) : Asn1ReadableOrWritable T U :=
  .Read v

def Asn1ReadableOrWritable.new_write {T U : Type} (v : U) : Asn1ReadableOrWritable T U :=
  .Write v

/-- `Asn1ReadableOrWritable::unwrap_read` returns `&T` (not a
`Result`): on the `Write` side the source aborts via an assertion
("unwrap_read called on a Write value").  The abort is modelled as
`none`; there is no error value a caller could observe. -/
def Asn1ReadableOrWritable.unwrap_read {T U : Type} :
    Asn1ReadableOrWritable T U → Option T
  | .Read v => some v
  | .Write _ => none

/-! ## Concrete fixtures

Concrete policies, certificates and PKCS#7 structures used to evaluate
the embedded functions at specific inputs. -/

def samplePolicy : Policy :=
  Policy.new (Subject.IP ⟨[127, 0, 0, 1]⟩) ⟨2024, 1, 1, 0, 0, 0⟩ none

def utc2020 : Time := .UtcTime ⟨2020, 1, 1, 0, 0, 0⟩ (by decide)

def utc2030 : Time := .UtcTime ⟨2030, 1, 1, 0, 0, 0⟩ (by decide)

/-- An X509v3 certificate with serial bytes `[0x00]` (the DER encoding
of the integer 0) that satisfies every other structural requirement of
`permits_basic`: matching signature algorithms, a non-empty issuer,
UTCTime validity dates around the sample validation time, and no
extensions. -/
def serialZeroCert : Certificate where
  tbs_cert :=
    { version := 2
      serial := [0]
      signature_alg := .RsaWithSha256 (some ())
      issuer := [[⟨[2, 5, 4, 3], [88]⟩]]
      validity := ⟨utc2020, utc2030⟩
      subject := [[⟨[2, 5, 4, 3], [88]⟩]]
      spki := ⟨.Rsa (some ()), [48]⟩
      extensions := [] }
  signature_alg := .RsaWithSha256 (some ())
  signature := [0]

/-- A non-critical KeyUsage extension whose value does not decode as a
`KeyUsage` (the raw bytes stand for DER that fails the typed parse). -/
def kuRawExt : Extension := ⟨KEY_USAGE_OID, false, .raw [3, 2, 1, 6]⟩

/-- A certificate carrying `kuRawExt` and passing `permits_basic`. -/
def kuRawCert : Certificate :=
  { serialZeroCert with tbs_cert :=
    { serialZeroCert.tbs_cert with serial := [1], extensions := [kuRawExt] } }

def kuRawExts : List Extension := kuRawCert.tbs_cert.extensions

/-- A well-formed KeyUsage extension that does not assert
`keyCertSign`. -/
def kuFalseExt : Extension := ⟨KEY_USAGE_OID, false, .keyUsage ⟨false⟩⟩

def kuFalseCert : Certificate :=
  { serialZeroCert with tbs_cert :=
    { serialZeroCert.tbs_cert with serial := [1], extensions := [kuFalseExt] } }

def kuFalseExts : List Extension := kuFalseCert.tbs_cert.extensions

/-- An `EnvelopedData` with no recipients. -/
def edNoRecipient : EnvelopedData :=
  ⟨0, [], ⟨[1, 2, 840, 113549, 1, 7, 1], .Aes128Cbc [0], some [1]⟩⟩

/-- An `EnvelopedData` whose sole recipient has serial bytes `[5]` but
whose content-encryption algorithm is AES-256-CBC, not AES-128-CBC. -/
def edAes256 : EnvelopedData :=
  ⟨0, [⟨0, ⟨[], [5]⟩, .Rsa (some ()), [9]⟩],
    ⟨[1, 2, 840, 113549, 1, 7, 1], .Aes256Cbc [0], some [1]⟩⟩

def dnsExampleCom : DNSName := ⟨"example.com".toList, by decide⟩

def dnsExampleComUpper : DNSName := ⟨"EXAMPLE.com".toList, by decide⟩

def dnsFooExampleCom : DNSName := ⟨"foo.example.com".toList, by decide⟩

def dnsLocalhost : DNSName := ⟨"localhost".toList, by decide⟩

/-- The claim-side reading of the `DNSName::new` validity conditions:
non-empty, at most 253 characters, and every `.`-separated label has 1
to 63 characters, contains only ASCII alphanumerics and `-`, and
neither starts nor ends with `-`. -/
def dnsClaimOk (value : List Char) : Prop :=
  value ≠ [] ∧ value.length ≤ 253 ∧
    ∀ l ∈ splitDot value, l ≠ [] ∧ l.length ≤ 63 ∧
      (∀ c ∈ l, isAsciiAlnum c = true ∨ c = '-') ∧
      l.head? ≠ some '-' ∧ l.getLast? ≠ some '-'

instance (value : List Char) : Decidable (dnsClaimOk value) := by
  unfold dnsClaimOk
  infer_instance

/-! # Theorems -/

/-- C5: `permits_validity_date(t)` succeeds iff `t` is a UTCTime (whose
year is below 2050 by construction of the type) or a GeneralizedTime
with year 2050 or later. -/
theorem c5_validity_date_law (t : Time) :
    permits_validity_date t = .ok () ↔
      (match t with
       | .UtcTime dt _ => dt.year < 2050
       | .GeneralizedTime dt => 2050 ≤ dt.year) := by
  cases t with
  | UtcTime dt h => simpa [permits_validity_date] using h
  | GeneralizedTime dt =>
    by_cases h : dt.year < 2050
    · simp only [permits_validity_date, if_pos h]
      constructor
      · intro hc
        exact absurd hc (by simp)
      · intro hc
        omega
    · simp only [permits_validity_date, if_neg h]
      simp only [true_iff]
      omega

/-- C5 witness: the boundary instances of the validity-encoding law. -/
theorem c5_validity_date_law_witness :
    permits_validity_date utc2020 = .ok () ∧
    permits_validity_date (.GeneralizedTime ⟨2050, 1, 1, 0, 0, 0⟩) = .ok () ∧
    permits_validity_date (.GeneralizedTime ⟨2049, 12, 31, 0, 0, 0⟩) ≠ .ok () := by
  refine ⟨(c5_validity_date_law utc2020).mpr (by simp [utc2020]),
    (c5_validity_date_law _).mpr (by simp), fun h => ?_⟩
  have hy := (c5_validity_date_law (.GeneralizedTime ⟨2049, 12, 31, 0, 0, 0⟩)).mp h
  simp at hy

/-- C9: `unwrap_read` on a `new_write` value aborts (modelled by
`none`; the Rust signature returns `&T`, so there is no error value to
return), while on a `new_read` value it yields the wrapped parse. -/
theorem c9_unwrap_read_spec (T U : Type) (t : T) (u : U) :
    (Asn1ReadableOrWritable.new_write (T := T) u).unwrap_read = none ∧
    (Asn1ReadableOrWritable.new_read (U := U) t).unwrap_read = some t :=
  ⟨rfl, rfl⟩

/-- Pulling one non-`\r` byte out of `decanonicalizeBytes`. -/
theorem decanonicalizeBytes_cons_ne (c : Nat) (l : List Nat) (h : c ≠ 13) :
    decanonicalizeBytes (c :: l) = c :: decanonicalizeBytes l := by
  cases l with
  | nil => simp [decanonicalizeBytes]
  | cons c2 rest => simp [decanonicalizeBytes, h]

/-- For `\r`-free input, decanonicalization undoes the canonicalization
loop, whatever previous-byte state (other than a pending `\r`) the loop
starts in. -/
theorem decanon_canon (prev : Option Nat) (x : List Nat)
    (hp : prev ≠ some 13) (h : 13 ∉ x) :
    decanonicalizeBytes (canonicalizeBytes prev x) = x := by
  induction x generalizing prev with
  | nil => rfl
  | cons c rest ih =>
    have hc : c ≠ 13 := fun hc => h (hc ▸ List.mem_cons_self c rest)
    have hrest : 13 ∉ rest := fun hr => h (List.mem_cons_of_mem c hr)
    by_cases h10 : c = 10
    · subst h10
      have hcond : ((10 : Nat) == 10 && !(prev == some 13)) = true := by
        cases prev with
        | none => simp
        | some v =>
          have hv : v ≠ 13 := fun hv => hp (by rw [hv])
          simp [hv]
      have hstep : canonicalizeBytes prev (10 :: rest) =
          13 :: 10 :: canonicalizeBytes (some 10) rest := by
        simp only [canonicalizeBytes, hcond, if_true]
      rw [hstep]
      have hstep2 : decanonicalizeBytes (13 :: 10 :: canonicalizeBytes (some 10) rest) =
          10 :: decanonicalizeBytes (canonicalizeBytes (some 10) rest) := by
        simp [decanonicalizeBytes]
      rw [hstep2, ih (some 10) (by simp) hrest]
    · have hcond : (c == 10 && !(prev == some 13)) = false := by simp [h10]
      have hstep : canonicalizeBytes prev (c :: rest) =
          c :: canonicalizeBytes (some c) rest := by
        simp only [canonicalizeBytes, hcond, Bool.false_eq_true, if_false]
      rw [hstep, decanonicalizeBytes_cons_ne c _ hc, ih (some c) (by simp [hc]) hrest]

/-- C2 counterexample: the byte string `"\r\n"` contains no bare `\r`
(its `\r` is immediately followed by `\n`), yet decanonicalizing the
canonicalization (text mode off) yields `"\n"`, not the input. -/
theorem c2_counterexample :
    hasBareCR [13, 10] = false ∧
    smime_decanonicalize (smime_canonicalize [13, 10] false).1 false ≠ [13, 10] := by
  exact ⟨rfl, by decide⟩

/-- C2 (amended): with text mode off, decanonicalization inverts
canonicalization on every byte string that contains no `\r` at all. -/
theorem c2_roundtrip (x : List Nat) (h : 13 ∉ x) :
    smime_decanonicalize (smime_canonicalize x false).1 false = x := by
  simp only [smime_canonicalize, smime_decanonicalize, Bool.false_and,
    Bool.if_false_left, if_neg, List.nil_append]
  exact decanon_canon none x (by simp) h

/-- C2 witness: the round trip at the concrete `\r`-free input
`"a\nb"`. -/
theorem c2_roundtrip_witness :
    (13 ∉ ([97, 10, 98] : List Nat)) ∧
    smime_decanonicalize (smime_canonicalize [97, 10, 98] false).1 false = [97, 10, 98] :=
  ⟨by decide, c2_roundtrip [97, 10, 98] (by decide)⟩

/-- C8: for an RSA key with non-PSS padding the PKCS#7
`digestEncryptionAlgorithm` is always `rsaEncryption` with NULL
parameters, whatever the digest; with PSS padding an RSASSA-PSS
identifier is built whose hash matches the chosen digest and whose
MGF1 algorithm matches the padding's MGF hash, with trailer field 1. -/
theorem c8_signature_algorithm_spec :
    (∀ (h : HashType) (pad : RsaPadding), pad.isPss = false →
      compute_pkcs7_signature_algorithm .Rsa h pad = .ok (.Rsa (some ()))) ∧
    (∀ (kt : KeyType) (h mgfh : HashType) (salt : Nat), h ≠ .None → mgfh ≠ .None →
      ∃ hp mp, identify_alg_params_for_hash_type h = .ok hp ∧
        identify_alg_params_for_hash_type mgfh = .ok mp ∧
        compute_pkcs7_signature_algorithm kt h (.Pss salt mgfh) =
          .ok (.RsaPss (some (.mk hp (.mk MGF1_OID mp) salt 1)))) := by
  constructor
  · intro h pad hpad
    cases pad with
    | NonePad => rfl
    | Pkcs1v15 => rfl
    | Pss s m => simp [RsaPadding.isPss] at hpad
  · intro kt h mgfh salt hh hm
    cases kt <;> cases h <;> cases mgfh <;>
      first
        | exact absurd rfl hh
        | exact absurd rfl hm
        | exact ⟨_, _, rfl, rfl, rfl⟩

/-- C8 witness: SHA-256 digests under PKCS#1 v1.5 and under PSS with
salt length 32 and MGF1-SHA-256. -/
theorem c8_signature_algorithm_witness :
    compute_pkcs7_signature_algorithm .Rsa .Sha256 .Pkcs1v15 = .ok (.Rsa (some ())) ∧
    compute_pkcs7_signature_algorithm .Rsa .Sha256 (.Pss 32 .Sha256) =
      .ok (.RsaPss (some (.mk (.Sha256 (some ())) (.mk MGF1_OID (.Sha256 (some ()))) 32 1))) := by
  constructor
  · exact c8_signature_algorithm_spec.1 .Sha256 .Pkcs1v15 rfl
  · obtain ⟨hp, mp, h1, h2, h3⟩ :=
      c8_signature_algorithm_spec.2 .Rsa .Sha256 .Sha256 32 (by decide) (by decide)
    simp only [identify_alg_params_for_hash_type, Except.ok.injEq] at h1 h2
    subst h1
    subst h2
    exact h3

/-- Rewriting each recipient's issuer DN commutes with the
serial-number recipient search: the search predicate never reads the
issuer. -/
theorem find?_serial_mapIssuer (f : Name → Name) (serial : List Nat)
    (l : List RecipientInfo) :
    List.find? (fun info => info.issuer_and_serial_number.serial_number == serial)
        (l.map fun ri =>
          (⟨ri.version,
            ⟨f ri.issuer_and_serial_number.issuer, ri.issuer_and_serial_number.serial_number⟩,
            ri.key_encryption_algorithm, ri.encrypted_key⟩ : RecipientInfo)) =
      (List.find? (fun info => info.issuer_and_serial_number.serial_number == serial) l).map
        fun ri =>
          (⟨ri.version,
            ⟨f ri.issuer_and_serial_number.issuer, ri.issuer_and_serial_number.serial_number⟩,
            ri.key_encryption_algorithm, ri.encrypted_key⟩ : RecipientInfo) := by
  induction l with
  | nil => rfl
  | cons ri rest ih =>
    rw [List.map_cons]
    cases hq : (ri.issuer_and_serial_number.serial_number == serial) with
    | true => simp [List.find?, hq]
    | false => simp [List.find?, hq, ih]

/-- C3: decryption selects the recipient purely by serial number (the
issuer DN of every recipient can be rewritten arbitrarily without
changing the result); with no serial match it fails with
`AttributeNotFound`; with a match but a content-encryption algorithm
other than AES-128-CBC it fails with `UnsupportedAlgorithm`. -/
theorem c3_decrypt_spec (ed : EnvelopedData) (serial : List Nat)
    (rsaDecrypt : List Nat → List Nat)
    (symDecrypt : List Nat → List Nat → List Nat → List Nat) (binary text : Bool) :
    (List.find? (fun info => info.issuer_and_serial_number.serial_number == serial)
        ed.recipient_infos = none →
      deserialize_and_decrypt (.EnvelopedData ed) serial rsaDecrypt symDecrypt binary text =
        .error .AttributeNotFound) ∧
    (∀ ri, List.find? (fun info => info.issuer_and_serial_number.serial_number == serial)
        ed.recipient_infos = some ri →
      (∀ iv, ed.encrypted_content_info.content_encryption_algorithm ≠ .Aes128Cbc iv) →
      deserialize_and_decrypt (.EnvelopedData ed) serial rsaDecrypt symDecrypt binary text =
        .error .UnsupportedAlgorithm) ∧
    (∀ f : Name → Name,
      deserialize_and_decrypt (.EnvelopedData (mapRecipientIssuers f ed)) serial
          rsaDecrypt symDecrypt binary text =
        deserialize_and_decrypt (.EnvelopedData ed) serial rsaDecrypt symDecrypt binary text) := by
  refine ⟨fun h => ?_, fun ri hri halg => ?_, fun f => ?_⟩
  · simp [deserialize_and_decrypt, h]
  · simp only [deserialize_and_decrypt, hri]
  · simp only [deserialize_and_decrypt, mapRecipientIssuers]
    rw [find?_serial_mapIssuer]
    cases h : List.find?
        (fun info => info.issuer_and_serial_number.serial_number == serial)
        ed.recipient_infos with
    | none => rfl
    | some ri => rfl

/-- C3 witness: with no recipient the decryption fails with
`AttributeNotFound`; with a matching recipient under AES-256-CBC it
fails with `UnsupportedAlgorithm`; and rewriting the matching
recipient's issuer DN leaves the result unchanged. -/
theorem c3_decrypt_witness :
    deserialize_and_decrypt (.EnvelopedData edNoRecipient) [5] id (fun _ _ c => c) true false =
      .error .AttributeNotFound ∧
    deserialize_and_decrypt (.EnvelopedData edAes256) [5] id (fun _ _ c => c) true false =
      .error .UnsupportedAlgorithm ∧
    deserialize_and_decrypt
        (.EnvelopedData (mapRecipientIssuers (fun _ => [[⟨[2, 5, 4, 3], [90]⟩]]) edAes256))
        [5] id (fun _ _ c => c) true false =
      deserialize_and_decrypt (.EnvelopedData edAes256) [5] id (fun _ _ c => c) true false :=
  ⟨(c3_decrypt_spec edNoRecipient [5] id (fun _ _ c => c) true false).1 rfl,
   (c3_decrypt_spec edAes256 [5] id (fun _ _ c => c) true false).2.1
     ⟨0, ⟨[], [5]⟩, .Rsa (some ()), [9]⟩ rfl (fun iv h => by cases h),
   (c3_decrypt_spec edAes256 [5] id (fun _ _ c => c) true false).2.2
     (fun _ => [[⟨[2, 5, 4, 3], [90]⟩]])⟩

/-- The single-entry matching rule behind `Subject::matches`: a SAN
entry contributes a match exactly when it is of the subject's kind,
its payload is well-formed, and the parsed value matches; malformed
payloads contribute `false` rather than an error. -/
theorem subject_alt_name_matches_iff (sub : Subject) (gn : GeneralName) :
    sub.subject_alt_name_matches gn = true ↔
      (match gn, sub with
       | .DNSName pat, .DNS name =>
         ∃ p, DNSPattern.new pat = some p ∧ p.matches name = true
       | .IPAddress b, .IP addr =>
         ∃ a, IPAddress.from_bytes b = some a ∧ a = addr
       | _, _ => False) := by
  cases gn with
  | DNSName pat =>
    cases sub with
    | DNS name =>
      cases h : DNSPattern.new pat with
      | none => simp [Subject.subject_alt_name_matches, h]
      | some p => simp [Subject.subject_alt_name_matches, h]
    | IP addr => simp [Subject.subject_alt_name_matches]
  | IPAddress b =>
    cases sub with
    | DNS name => simp [Subject.subject_alt_name_matches]
    | IP addr =>
      cases h : IPAddress.from_bytes b with
      | none => simp [Subject.subject_alt_name_matches, h]
      | some a => simp [Subject.subject_alt_name_matches, h]
  | RFC822Name s => cases sub <;> simp [Subject.subject_alt_name_matches]
  | UniformResourceIdentifier s => cases sub <;> simp [Subject.subject_alt_name_matches]
  | DirectoryName n => cases sub <;> simp [Subject.subject_alt_name_matches]
  | OtherName => cases sub <;> simp [Subject.subject_alt_name_matches]
  | RegisteredID oid => cases sub <;> simp [Subject.subject_alt_name_matches]

/-- C10: `Subject::matches` never fails on malformed SAN entries: it is
a total boolean that is true exactly when some entry of the subject's
kind is well-formed and matches; entries whose DNS pattern fails
`DNSPattern::new` or whose bytes fail `IPAddress::from_bytes`
contribute `false`. -/
theorem c10_subject_matches_total (sub : Subject) (san : List GeneralName) :
    Subject.matches sub san = true ↔
      ∃ gn ∈ san,
        (match gn, sub with
         | .DNSName pat, .DNS name =>
           ∃ p, DNSPattern.new pat = some p ∧ p.matches name = true
         | .IPAddress b, .IP addr =>
           ∃ a, IPAddress.from_bytes b = some a ∧ a = addr
         | _, _ => False) := by
  unfold Subject.matches
  rw [List.any_eq_true]
  constructor
  · rintro ⟨gn, hmem, hgn⟩
    exact ⟨gn, hmem, (subject_alt_name_matches_iff sub gn).mp hgn⟩
  · rintro ⟨gn, hmem, hgn⟩
    exact ⟨gn, hmem, (subject_alt_name_matches_iff sub gn).mpr hgn⟩

/-- Rust `eq_ignore_ascii_case` agrees with equality of the
ASCII-lowercased strings. -/
theorem eqIgnoreAsciiCase_iff (a b : List Char) :
    eqIgnoreAsciiCase a b = true ↔ a.map toAsciiLower = b.map toAsciiLower := by
  induction a generalizing b with
  | nil => cases b <;> simp [eqIgnoreAsciiCase]
  | cons x xs ih =>
    cases b with
    | nil => simp [eqIgnoreAsciiCase]
    | cons y ys =>
      have h := ih ys
      simp only [eqIgnoreAsciiCase, List.length_cons, List.zip_cons_cons, List.all_cons,
        Bool.and_eq_true, beq_iff_eq, List.map_cons, List.cons.injEq] at h ⊢
      constructor
      · rintro ⟨hlen, hxy, hall⟩
        exact ⟨hxy, h.mp ⟨by omega, hall⟩⟩
      · rintro ⟨hxy, hrest⟩
        obtain ⟨hlen, hall⟩ := h.mpr hrest
        exact ⟨by omega, hxy, hall⟩

/-- C6: an exact pattern matches exactly the ASCII-case-insensitively
equal names; a wildcard pattern matches exactly the names whose parent
exists and is case-insensitively equal to the pattern's base; a name
with no parent (a single label) is never matched by a wildcard. -/
theorem c6_dnspattern_match_laws (n m : DNSName) :
    ((DNSPattern.Exact n).matches m = true ↔
      n.val.map toAsciiLower = m.val.map toAsciiLower) ∧
    ((DNSPattern.Wildcard n).matches m = true ↔
      ∃ par, m.parent = some par ∧ n.val.map toAsciiLower = par.val.map toAsciiLower) ∧
    (m.parent = none → (DNSPattern.Wildcard n).matches m = false) := by
  refine ⟨?_, ?_, fun hp => by simp [DNSPattern.matches, hp]⟩
  · simpa [DNSPattern.matches, DNSName.eq] using eqIgnoreAsciiCase_iff n.val m.val
  · cases hp : m.parent with
    | none => simp [DNSPattern.matches, hp]
    | some par =>
      simp only [DNSPattern.matches, hp, DNSName.eq]
      constructor
      · intro h
        exact ⟨par, rfl, (eqIgnoreAsciiCase_iff _ _).mp h⟩
      · rintro ⟨par', hpar', heq⟩
        injection hpar' with hpp
        subst hpp
        exact (eqIgnoreAsciiCase_iff _ _).mpr heq

/-- C6 witness: the match laws at concrete names, including the
case-insensitive exact match, the one-label wildcard match, and the
single-label wildcard miss. -/
theorem c6_dnspattern_match_laws_witness :
    (DNSPattern.Exact dnsExampleComUpper).matches dnsExampleCom = true ∧
    (DNSPattern.Wildcard dnsExampleCom).matches dnsFooExampleCom = true ∧
    (DNSPattern.Wildcard dnsExampleCom).matches dnsLocalhost = false :=
  ⟨(c6_dnspattern_match_laws dnsExampleComUpper dnsExampleCom).1.mpr (by decide),
   (c6_dnspattern_match_laws dnsExampleCom dnsFooExampleCom).2.1.mpr
     ⟨dnsExampleCom, rfl, by decide⟩,
   (c6_dnspattern_match_laws dnsExampleCom dnsLocalhost).2.2 rfl⟩

theorem splitDot_ne_nil (s : List Char) : splitDot s ≠ [] := by
  induction s with
  | nil => simp [splitDot]
  | cons c rest ih =>
    simp only [splitDot]
    by_cases h : c = '.'
    · simp [h]
    · rw [if_neg h]
      cases hs : splitDot rest with
      | nil => simp
      | cons l ls => simp

/-- Every character of a `splitDot` piece comes from the original
string. -/
theorem mem_of_mem_splitDot {s l : List Char} {c : Char}
    (hl : l ∈ splitDot s) (hc : c ∈ l) : c ∈ s := by
  induction s generalizing l with
  | nil =>
    simp only [splitDot, List.mem_singleton] at hl
    subst hl
    simp at hc
  | cons a rest ih =>
    simp only [splitDot] at hl
    by_cases h : a = '.'
    · rw [if_pos h] at hl
      rcases List.mem_cons.mp hl with h1 | h1
      · subst h1
        simp at hc
      · exact List.mem_cons_of_mem a (ih h1 hc)
    · rw [if_neg h] at hl
      cases hs : splitDot rest with
      | nil => exact absurd hs (splitDot_ne_nil rest)
      | cons m ms =>
        rw [hs] at hl
        rcases List.mem_cons.mp hl with h1 | h1
        · subst h1
          rcases List.mem_cons.mp hc with h2 | h2
          · subst h2
            exact List.mem_cons_self _ _
          · exact List.mem_cons_of_mem a
              (ih (l := m) (by rw [hs]; exact List.mem_cons_self m ms) h2)
        · exact List.mem_cons_of_mem a
            (ih (l := l) (by rw [hs]; exact List.mem_cons_of_mem m h1) hc)

/-- Every character of the original string is a dot or belongs to some
`splitDot` piece. -/
theorem mem_splitDot_cover {s : List Char} {c : Char} (hc : c ∈ s) :
    c = '.' ∨ ∃ l ∈ splitDot s, c ∈ l := by
  induction s with
  | nil => simp at hc
  | cons a rest ih =>
    by_cases h : a = '.'
    · rcases List.mem_cons.mp hc with h1 | h1
      · exact Or.inl (h1.trans h)
      · rcases ih h1 with h2 | ⟨l, hl, hcl⟩
        · exact Or.inl h2
        · refine Or.inr ⟨l, ?_, hcl⟩
          simp only [splitDot, if_pos h]
          exact List.mem_cons_of_mem _ hl
    · cases hs : splitDot rest with
      | nil => exact absurd hs (splitDot_ne_nil rest)
      | cons m ms =>
        have hsplit : splitDot (a :: rest) = (a :: m) :: ms := by
          simp only [splitDot, if_neg h, hs]
        rcases List.mem_cons.mp hc with h1 | h1
        · subst h1
          exact Or.inr ⟨c :: m, by rw [hsplit]; exact List.mem_cons_self _ _,
            List.mem_cons_self _ _⟩
        · rcases ih h1 with h2 | ⟨l, hl, hcl⟩
          · exact Or.inl h2
          · rw [hs] at hl
            rcases List.mem_cons.mp hl with h3 | h3
            · subst h3
              exact Or.inr ⟨a :: l, by rw [hsplit]; exact List.mem_cons_self _ _,
                List.mem_cons_of_mem a hcl⟩
            · exact Or.inr ⟨l, by rw [hsplit]; exact List.mem_cons_of_mem _ h3, hcl⟩

/-- ASCII strings have as many UTF-8 bytes as characters. -/
theorem rustStrLen_ascii {s : List Char} (h : ∀ c ∈ s, c.toNat ≤ 127) :
    rustStrLen s = s.length := by
  induction s with
  | nil => rfl
  | cons c rest ih =>
    have hc := h c (List.mem_cons_self c rest)
    have h1 : rustCharLen c = 1 := by
      unfold rustCharLen
      rw [if_pos (by omega)]
    have h2 := ih fun x hx => h x (List.mem_cons_of_mem c hx)
    simp only [rustStrLen, List.map_cons, List.sum_cons, List.length_cons] at h2 ⊢
    omega

theorem alnumHyphenDot_ascii {c : Char}
    (h : isAsciiAlnum c = true ∨ c = '-' ∨ c = '.') : c.toNat ≤ 127 := by
  rcases h with h | h | h
  · simp only [isAsciiAlnum, Bool.or_eq_true, Bool.and_eq_true,
      decide_eq_true_eq] at h
    omega
  · subst h
    decide
  · subst h
    decide

theorem alnumHyphenDot_not_ws {c : Char}
    (h : isAsciiAlnum c = true ∨ c = '-' ∨ c = '.') : isWhitespaceRust c = false := by
  have hn : c.toNat ≠ 32 ∧ c.toNat ∉ [9, 10, 11, 12, 13] ∧ 127 < 0x85 := by
    rcases h with h | h | h
    · simp only [isAsciiAlnum, Bool.or_eq_true, Bool.and_eq_true,
        decide_eq_true_eq] at h
      refine ⟨by omega, by simp; omega, by omega⟩
    · subst h
      decide
    · subst h
      decide
  have hle := alnumHyphenDot_ascii h
  simp only [isWhitespaceRust, decide_eq_false_iff_not, List.mem_cons,
    List.not_mem_nil, or_false, not_or]
  obtain ⟨h32, hlow, -⟩ := hn
  simp only [List.mem_cons, List.not_mem_nil, or_false, not_or] at hlow
  omega

/-- The per-label check of `DNSName::new`, restated over character
counts: for a label passing (or required to pass) the
alphanumeric-or-hyphen constraint, byte length and character length
agree. -/
theorem labelOk_iff (l : List Char) :
    labelOk l = true ↔ l ≠ [] ∧ l.length ≤ 63 ∧
      (∀ c ∈ l, isAsciiAlnum c = true ∨ c = '-') ∧
      l.head? ≠ some '-' ∧ l.getLast? ≠ some '-' := by
  unfold labelOk
  simp only [Bool.and_eq_true, Bool.not_eq_true', Bool.or_eq_false_iff,
    List.isEmpty_eq_false, decide_eq_false_iff_not, not_lt, beq_eq_false_iff_ne,
    ne_eq, List.all_eq_true, Bool.or_eq_true, beq_iff_eq]
  constructor
  · rintro ⟨⟨⟨⟨hne, hlen⟩, hhd⟩, hlast⟩, hall⟩
    have hascii : ∀ c ∈ l, c.toNat ≤ 127 := fun c hc =>
      alnumHyphenDot_ascii ((hall c hc).elim Or.inl fun h2 => Or.inr (Or.inl h2))
    rw [rustStrLen_ascii hascii] at hlen
    exact ⟨hne, hlen, hall, hhd, hlast⟩
  · rintro ⟨hne, hlen, hall, hhd, hlast⟩
    have hascii : ∀ c ∈ l, c.toNat ≤ 127 := fun c hc =>
      alnumHyphenDot_ascii ((hall c hc).elim Or.inl fun h2 => Or.inr (Or.inl h2))
    refine ⟨⟨⟨⟨hne, ?_⟩, hhd⟩, hlast⟩, hall⟩
    rw [rustStrLen_ascii hascii]
    exact hlen

/-- The whole `DNSName::new` check against the claim-side conditions:
the whitespace, byte-length and IA5 checks of the source are subsumed
by (and equivalent to, on the accepted set) the label constraints. -/
theorem dnsCheck_iff (value : List Char) :
    dnsCheck value = true ↔ dnsClaimOk value := by
  unfold dnsCheck dnsClaimOk
  constructor
  · intro hd
    split at hd
    · exact absurd hd (by simp)
    · next hcond =>
      simp only [Bool.or_eq_true, decide_eq_true_eq, not_or] at hcond
      obtain ⟨⟨hemp, hws⟩, hlen253⟩ := hcond
      rw [Bool.and_eq_true] at hd
      obtain ⟨hall, hia5⟩ := hd
      have hascii : ∀ c ∈ value, c.toNat ≤ 127 := by
        simpa [isIA5, List.all_eq_true, decide_eq_true_eq] using hia5
      refine ⟨by simpa using hemp, ?_, ?_⟩
      · rw [← rustStrLen_ascii hascii]
        omega
      · intro l hl
        exact (labelOk_iff l).mp (List.all_eq_true.mp hall l hl)
  · rintro ⟨hne, hlen, hlab⟩
    have hascii : ∀ c ∈ value, c.toNat ≤ 127 := by
      intro c hc
      rcases mem_splitDot_cover hc with h | ⟨l, hl, hcl⟩
      · exact alnumHyphenDot_ascii (Or.inr (Or.inr h))
      · have h2 := (hlab l hl).2.2.1 c hcl
        exact alnumHyphenDot_ascii (h2.elim Or.inl fun h3 => Or.inr (Or.inl h3))
    have hws : value.any isWhitespaceRust = false := by
      rw [List.any_eq_false]
      intro c hc
      rcases mem_splitDot_cover hc with h | ⟨l, hl, hcl⟩
      · simp [alnumHyphenDot_not_ws (Or.inr (Or.inr h))]
      · have h2 := (hlab l hl).2.2.1 c hcl
        simp [alnumHyphenDot_not_ws (h2.elim Or.inl fun h3 => Or.inr (Or.inl h3))]
    have hcond : (value.isEmpty || value.any isWhitespaceRust ||
        decide (rustStrLen value > 253)) = false := by
      simp only [hws, List.isEmpty_eq_false.mpr hne, Bool.or_self, Bool.false_or,
        decide_eq_false_iff_not, not_lt]
      rw [rustStrLen_ascii hascii]
      exact hlen
    rw [if_neg (by simp [hcond])]
    rw [Bool.and_eq_true]
    refine ⟨List.all_eq_true.mpr fun l hl => (labelOk_iff l).mpr (hlab l hl), ?_⟩
    simp only [isIA5, List.all_eq_true, decide_eq_true_eq]
    exact hascii

/-- C7: `DNSName::new` succeeds exactly on the strings satisfying the
claim's conditions (non-empty, at most 253 characters, labels of 1-63
characters made of ASCII alphanumerics and `-`, no leading or trailing
`-`); the claim's concrete examples behave as stated, including the
accepted IDN label with internal consecutive hyphens. -/
theorem c7_dnsname_new_law :
    (∀ value, (DNSName.new value).isSome = true ↔ dnsClaimOk value) ∧
    DNSName.new "-foo.example".toList = none ∧
    DNSName.new "foo-.example".toList = none ∧
    DNSName.new (List.replicate 64 'a' ++ ".example".toList) = none ∧
    DNSName.new [] = none ∧
    (DNSName.new "xn--bcher-kva.example".toList).isSome = true := by
  refine ⟨fun value => ?_, by decide, by decide, by decide, by decide, by decide⟩
  by_cases hd : dnsCheck value = true
  · simp [DNSName.new, hd, (dnsCheck_iff value).mp hd]
  · rw [DNSName.new, dif_neg hd]
    simp only [Option.isSome_none, Bool.false_eq_true, false_iff]
    exact fun hc => hd ((dnsCheck_iff value).mpr hc)

/-- C7 witness: the law applied at `"example.com"`. -/
theorem c7_dnsname_new_law_witness :
    dnsClaimOk "example.com".toList ∧
    (DNSName.new "example.com".toList).isSome = true :=
  ⟨by decide, (c7_dnsname_new_law.1 "example.com".toList).mpr (by decide)⟩

/-- C1 counterexample: a certificate whose serial is the integer 0
(DER content octets `[0x00]`: one octet, high bit clear) passes
`permits_basic` in full, so a zero serial is *not* rejected; the
source deliberately skips the positivity check. -/
theorem c1_counterexample :
    permits_basic samplePolicy serialZeroCert = .ok () ∧
    ¬(0 < serialValue serialZeroCert.tbs_cert.serial) :=
  ⟨by decide, by decide⟩

/-- C1 (amended): whenever `permits_basic` succeeds, the serial's DER
encoding occupies 1 to 21 octets and the high bit of its first octet
is 0 — equivalently the serial is non-negative; positivity (rejecting
zero) is not enforced. -/
theorem c1_serial_check (p : Policy) (cert : Certificate)
    (h : permits_basic p cert = .ok ()) :
    1 ≤ cert.tbs_cert.serial.length ∧ cert.tbs_cert.serial.length ≤ 21 ∧
    cert.tbs_cert.serial.headI.testBit 7 = false ∧
    0 ≤ serialValue cert.tbs_cert.serial := by
  unfold permits_basic at h
  split at h
  · exact absurd h (by simp)
  split at h
  · exact absurd h (by simp)
  split at h
  · exact absurd h (by simp)
  split at h
  · exact absurd h (by simp)
  split at h
  · exact absurd h (by simp)
  rename_i hext hver hsig hlen hbit
  have h1 : 1 ≤ cert.tbs_cert.serial.length ∧ cert.tbs_cert.serial.length ≤ 21 := by
    by_contra hc
    exact hlen hc
  have h2 : cert.tbs_cert.serial.headI.testBit 7 = false := by
    by_contra hc
    exact hbit (by simpa using hc)
  refine ⟨h1.1, h1.2, h2, ?_⟩
  rw [serialValue, if_neg (by simp [h2])]
  exact Int.natCast_nonneg _

/-- C1 witness: the amended serial conditions extracted from the
accepting run on the concrete certificate. -/
theorem c1_serial_check_witness :
    permits_basic samplePolicy serialZeroCert = .ok () ∧
    (1 ≤ serialZeroCert.tbs_cert.serial.length ∧
     serialZeroCert.tbs_cert.serial.length ≤ 21 ∧
     serialZeroCert.tbs_cert.serial.headI.testBit 7 = false ∧
     0 ≤ serialValue serialZeroCert.tbs_cert.serial) :=
  ⟨by decide, c1_serial_check samplePolicy serialZeroCert (by decide)⟩

/-- C4 counterexample: a leaf with a KeyUsage extension that is present
but does not decode as a `KeyUsage` (so, as stated, it does not
"assert keyCertSign") makes `permits_leaf` return the decode error —
which differs from the `permits_ee` result the claim prescribes for
the "otherwise" case. -/
theorem c4_counterexample :
    get_extension kuRawExts KEY_USAGE_OID = some kuRawExt ∧
    (∀ ku, kuRawExt.keyUsageValue ≠ .ok ku) ∧
    permits_leaf samplePolicy kuRawCert kuRawExts ≠
      permits_ee samplePolicy kuRawCert kuRawExts := by
  refine ⟨rfl, fun ku h => ?_, by decide⟩
  simp [Extension.keyUsageValue, kuRawExt] at h

/-- C4 (amended): `permits_leaf` applies at most one admission arm and
never combines them: with a present, decodable KeyUsage asserting
`keyCertSign` it returns exactly the `permits_ca` result at depth 0;
with a present, decodable KeyUsage not asserting `keyCertSign`, or no
KeyUsage at all, it returns exactly the `permits_ee` result; with a
present but undecodable KeyUsage it returns the decode error and
applies neither arm. -/
theorem c4_permits_leaf_dispatch (p : Policy) (leaf : Certificate)
    (exts : List Extension) :
    (∀ e ku, get_extension exts KEY_USAGE_OID = some e → e.keyUsageValue = .ok ku →
      ku.key_cert_sign = true → permits_leaf p leaf exts = permits_ca p leaf 0 exts) ∧
    (∀ e ku, get_extension exts KEY_USAGE_OID = some e → e.keyUsageValue = .ok ku →
      ku.key_cert_sign = false → permits_leaf p leaf exts = permits_ee p leaf exts) ∧
    (get_extension exts KEY_USAGE_OID = none →
      permits_leaf p leaf exts = permits_ee p leaf exts) ∧
    (∀ e err, get_extension exts KEY_USAGE_OID = some e → e.keyUsageValue = .error err →
      permits_leaf p leaf exts = .error err) := by
  refine ⟨fun e ku he hku hcs => ?_, fun e ku he hku hcs => ?_,
    fun he => ?_, fun e err he herr => ?_⟩
  · simp [permits_leaf, he, hku, hcs]
  · simp [permits_leaf, he, hku, hcs]
  · simp [permits_leaf, he]
  · simp [permits_leaf, he, herr]

/-- C4 witness: with a decodable KeyUsage not asserting `keyCertSign`,
`permits_leaf` returns exactly the EE-arm result. -/
theorem c4_permits_leaf_dispatch_witness :
    kuFalseExt.keyUsageValue = .ok ⟨false⟩ ∧
    permits_leaf samplePolicy kuFalseCert kuFalseExts =
      permits_ee samplePolicy kuFalseCert kuFalseExts :=
  ⟨rfl, (c4_permits_leaf_dispatch samplePolicy kuFalseCert kuFalseExts).2.1
    kuFalseExt ⟨false⟩ rfl rfl rfl⟩

/-- C10 witness: a SAN holding one malformed wildcard pattern and one
valid wildcard pattern matches a DNS subject without error, and the
malformed-only SAN does not match. -/
theorem c10_subject_matches_witness :
    Subject.matches (.DNS dnsFooExampleCom)
      [.DNSName "*es*.example.com".toList, .DNSName "*.example.com".toList] = true ∧
    Subject.matches (.DNS dnsFooExampleCom) [.DNSName "*es*.example.com".toList] = false ∧
    Subject.matches (.IP ⟨[127, 0, 0, 1]⟩) [.IPAddress [1, 2, 3]] = false := by
  refine ⟨(c10_subject_matches_total _ _).mpr ?_, by decide, by decide⟩
  refine ⟨.DNSName "*.example.com".toList, by simp, ?_⟩
  exact ⟨.Wildcard dnsExampleCom, rfl, by decide⟩

end X509
